import Mathlib

/-!
Verification of the NutriBot orchestration core against its specification.

The development shallowly embeds the JavaScript source of the repository:

* `src/src/middleware/privacyMiddleware.js` — privacy context construction,
  data minimization, the enhanced (health) consent gate;
* `src/src/services/localLLMService.js` — local provider client, prompt
  anonymization wrapper, rule-based fallback responder;
* the `ChatbotService` (assessment state machine: start, processAnswer,
  getAssessment, deleteAssessment) and the LLM dispatch
  `generateLLMResponse`.

External capabilities that are not part of the repository source
(`validateConsent`, the network calls of axios/OpenAI, UUID generation and
wall-clock time) are passed in as explicit parameters.  The utility module
`utils/dataAnonymizer` and `utils/encryption` are required by the source but
absent from the repository; they are modelled from the spec where a claim
depends on them (see the doc comments of `anonymizeDataModel`, `encryptData`
and `decryptData`).  JavaScript numbers that only ever hold small
non-negative integers are modelled as `Nat`; `Math.round((len/total)*100)`
is modelled exactly on rationals by `jsRoundPct` (the float evaluation of
the source agrees with the rational value for every `total` used by the
code, namely `total = 15`).
-/

/-- A JavaScript `Error`, identified by its message. -/
structure JsError where
  msg : String
deriving DecidableEq, Repr

/-- A JavaScript primitive value, as stored in request bodies and records. -/
inductive JsValue where
  | vStr (s : String)
  | vNum (n : Int)
  | vBool (b : Bool)
  | vNull
deriving DecidableEq, Repr

/-- JavaScript truthiness of a `JsValue` (`""`, `0`, `false`, `null` are falsy). -/
def JsValue.truthy : JsValue → Bool
  | .vStr s => s ≠ ""
  | .vNum n => n ≠ 0
  | .vBool b => b
  | .vNull => false

/-- A JavaScript object, as an association list in insertion order
(keys are unique in every object the middleware manipulates). -/
abbrev JsObj := List (String × JsValue)

/-- `String.prototype.includes`: substring containment. -/
def jsIncludes (s sub : String) : Bool :=
  let sl := s.toList
  let tl := sub.toList
  (List.range (sl.length + 1)).any (fun i => tl.isPrefixOf (sl.drop i))

/-- Lookup of a key in a JavaScript object (`obj[key]`, `undefined` ↦ `none`). -/
def objGet (o : JsObj) (k : String) : Option JsValue :=
  (List.find? (fun kv => kv.1 == k) o).map (fun kv => kv.2)

/-- `delete obj[key]`. -/
def objDelete (o : JsObj) (k : String) : JsObj :=
  List.filter (fun kv => !(kv.1 == k)) o

/-- Truthiness of `obj[key]` (`undefined` is falsy). -/
def truthyLookup (o : JsObj) (k : String) : Bool :=
  ((objGet o k).map JsValue.truthy).getD false

/-- `Math.round ((len / total) * 100)` computed exactly:
`⌊100·len/total + 1/2⌋ = (200·len + total) / (2·total)`. -/
def jsRoundPct (len total : Nat) : Nat :=
  (200 * len + total) / (2 * total)

/-! ## Privacy middleware (`src/src/middleware/privacyMiddleware.js`) -/

/-- The environment-driven compliance configuration read by the middleware
(`DATA_MINIMIZATION_ENABLED`, `ANONYMIZATION_ENABLED`, …). -/
structure EnvConfig where
  dataMinimizationEnabled : Bool
  anonymizationEnabled : Bool
  gdprComplianceEnabled : Bool
  lopdgddComplianceEnabled : Bool
deriving DecidableEq, Repr

/-- The inbound request data the middleware inspects. -/
structure ReqData where
  path : String
  headerConsentToken : Option String
  cookieConsentToken : Option String
  body : Option JsObj
  ip : String
  userAgent : Option String
deriving DecidableEq

/-- The per-request privacy context attached to `req.privacyContext`
(lines 24–33 of `privacyMiddleware.js`; the timestamp is abstracted to a
natural number). -/
structure PrivacyContext where
  timestamp : Nat
  ipAddress : String
  userAgent : Option String
  consentValid : Bool
  dataMinimization : Bool
  anonymization : Bool
  gdprCompliance : Bool
  lopdgddCompliance : Bool
deriving DecidableEq

/-- `req.headers[..] || req.cookies?.consentToken` followed by the
truthiness test `if (consentToken)`: the token the middleware will
validate, if any (an empty string is falsy in JavaScript). -/
def resolveConsentToken (req : ReqData) : Option String :=
  let h := req.headerConsentToken.getD ""
  let t := if h ≠ "" then h else req.cookieConsentToken.getD ""
  if t ≠ "" then some t else none

/-- Lines 24–39 of `privacyMiddleware.js`: build the fresh privacy context,
then validate a consent token when one is present.  `validateConsent` is the
external consent-validation capability. -/
def buildPrivacyContext (now : Nat) (env : EnvConfig)
    (validateConsent : String → Bool) (req : ReqData) : PrivacyContext :=
  let base : PrivacyContext :=
    { timestamp := now
      ipAddress := req.ip
      userAgent := req.userAgent
      consentValid := false
      dataMinimization := env.dataMinimizationEnabled
      anonymization := env.anonymizationEnabled
      gdprCompliance := env.gdprComplianceEnabled
      lopdgddCompliance := env.lopdgddComplianceEnabled }
  match resolveConsentToken req with
  | some t => { base with consentValid := validateConsent t }
  | none => base

/-- The allow-list of `minimizeData` for chatbot endpoints. -/
def allowedFields : List String :=
  ["message", "healthData", "dietaryPreferences", "allergies",
   "medicalConditions", "goals", "age", "weight", "height"]

/-- The global deny-list of direct identifiers of `minimizeData`. -/
def personalIdentifiers : List String :=
  ["email", "phone", "address", "socialSecurityNumber",
   "passportNumber", "driverLicense", "creditCard"]

/-- One iteration of the deny-list loop of `minimizeData`:
`if (minimized[identifier]) { delete minimized[identifier] }`. -/
def denyStep (acc : JsObj) (ident : String) : JsObj :=
  if truthyLookup acc ident then objDelete acc ident else acc

/-- `minimizeData(data, path)` (lines 71–102 of `privacyMiddleware.js`):
for chatbot paths keep only the allow-listed fields, then delete each
deny-listed identifier — but only when its stored value is truthy. -/
def minimizeData (data : JsObj) (path : String) : JsObj :=
  let m1 :=
    if jsIncludes path "/chatbot/" then
      List.filter (fun kv => allowedFields.contains kv.1) data
    else data
  personalIdentifiers.foldl denyStep m1

/-- Observable events of a middleware/route execution, in order. -/
inductive MwStep where
  | minimizeStep
  | anonymizeStep
  | consentCheckStep
  | providerCallStep
deriving DecidableEq, Repr

/-- Outcome of an Express middleware: pass to the next handler (`next()`),
fail the request (`next(error)`), or answer it directly (`res.status(..)`).
The trace records the payload transformations and checks performed. -/
inductive MwOutcome where
  | pass (ctx : PrivacyContext) (body : Option JsObj) (trace : List MwStep)
  | failErr (e : JsError) (trace : List MwStep)
  | reject (status : Nat) (code : String) (trace : List MwStep)
deriving DecidableEq

/-- `true` exactly when the middleware outcome fails the request. -/
def mwFailed : MwOutcome → Bool
  | .failErr _ _ => true
  | _ => false

/-- `privacyMiddleware` (lines 12–65): build the context, then minimize and
anonymize the body when the respective flags are set.  The middleware-level
anonymizer `anonymizeData(data, path)` comes from the absent
`utils/dataAnonymizer` module and is passed as a fallible capability
`anonExt`; a throw inside the `try` block reaches the trailing
`catch (error) { next(error) }`. -/
def privacyMiddleware (now : Nat) (env : EnvConfig)
    (validateConsent : String → Bool)
    (anonExt : JsObj → String → Except JsError JsObj)
    (req : ReqData) : MwOutcome :=
  let ctx := buildPrivacyContext now env validateConsent req
  let step1 : Option JsObj × List MwStep :=
    match req.body with
    | some b =>
      if ctx.dataMinimization then (some (minimizeData b req.path), [.minimizeStep])
      else (some b, [])
    | none => (none, [])
  match step1 with
  | (some b, tr1) =>
    if ctx.anonymization then
      match anonExt b req.path with
      | .ok b2 => .pass ctx (some b2) (tr1 ++ [.anonymizeStep])
      | .error e => .failErr e tr1
    else .pass ctx (some b) tr1
  | (none, tr1) => .pass ctx none tr1

/-- Is the path a health/medical path in the sense of
`enhancedPrivacyMiddleware` (`req.path.includes('/health') ||
req.path.includes('/medical')`)? -/
def isHealthPath (path : String) : Bool :=
  jsIncludes path "/health" || jsIncludes path "/medical"

/-- `enhancedPrivacyMiddleware` (lines 107–132): run the standard privacy
middleware first; afterwards, on health/medical paths, reject with
403/`HEALTH_CONSENT_REQUIRED` unless the context carries a valid consent. -/
def enhancedPrivacyMiddleware (now : Nat) (env : EnvConfig)
    (validateConsent : String → Bool)
    (anonExt : JsObj → String → Except JsError JsObj)
    (req : ReqData) : MwOutcome :=
  match privacyMiddleware now env validateConsent anonExt req with
  | .failErr e tr => .failErr e tr
  | .reject s c tr => .reject s c tr
  | .pass ctx body tr =>
    if isHealthPath req.path then
      if !ctx.consentValid then
        .reject 403 "HEALTH_CONSENT_REQUIRED" (tr ++ [.consentCheckStep])
      else .pass ctx body (tr ++ [.consentCheckStep])
    else .pass ctx body tr

/-- Result of a routed request. -/
inductive RouteResult where
  | success (body : String)
  | rejected (status : Nat) (code : String)
  | errored (e : JsError)
deriving DecidableEq

/-- A chatbot route as wired in `routes/chatbot.js`: the enhanced privacy
middleware runs first; only when it passes does the route handler (which is
what invokes the provider abstraction) run.  The handler, including any
further middleware, is abstracted as a function of the context and
(transformed) body; its own trace is appended after the middleware trace. -/
def runRoute (handler : PrivacyContext → Option JsObj → RouteResult × List MwStep)
    (now : Nat) (env : EnvConfig) (validateConsent : String → Bool)
    (anonExt : JsObj → String → Except JsError JsObj)
    (req : ReqData) : RouteResult × List MwStep :=
  match enhancedPrivacyMiddleware now env validateConsent anonExt req with
  | .pass ctx body tr =>
    match handler ctx body with
    | (r, hs) => (r, tr ++ hs)
  | .failErr e tr => (.errored e, tr)
  | .reject s c tr => (.rejected s c, tr)

/-- Does the consent check precede every payload transformation in a trace?
(The property the spec asserts of the health consent gate.) -/
def consentFirst (tr : List MwStep) : Bool :=
  (tr.takeWhile (fun s => !(s == MwStep.consentCheckStep))).all
    (fun s => !(s == MwStep.minimizeStep) && !(s == MwStep.anonymizeStep))

/-! ## Anonymization pipeline (`src/src/services/localLLMService.js`) -/

/-- The option object handed to `anonymizeData` by `anonymizePrompt`. -/
structure AnonFlags where
  removeNames : Bool
  removeLocations : Bool
  removeDates : Bool
  removePersonalInfo : Bool
deriving DecidableEq, Repr

/-- The flags of the `'high'` case of `anonymizePrompt`. -/
def highFlags : AnonFlags := ⟨true, true, true, true⟩

/-- The flags of the `'medium'` case of `anonymizePrompt`. -/
def mediumFlags : AnonFlags := ⟨true, false, false, false⟩

/-- `privacyContext.anonymizationLevel || 'medium'`: an absent or empty
level falls back to `'medium'`. -/
def levelOrDefault (level : Option String) : String :=
  match level with
  | some s => if s ≠ "" then s else "medium"
  | none => "medium"

/-- `anonymizePrompt(prompt, privacyContext)` (lines 78–106 of
`localLLMService.js`), parameterized over the payload type and over the
implementation of the absent `utils/dataAnonymizer` capability:
dispatch on the (defaulted) anonymization level, calling `anonymizeData`
with the level's flags; any error thrown by `anonymizeData` is caught and
the original prompt is returned; levels other than `'high'`/`'medium'`
(including `'low'`) are a pass-through. -/
def anonymizePromptRun {α : Type} (impl : α → AnonFlags → Except JsError α)
    (level : Option String) (p : α) : α :=
  let lvl := levelOrDefault level
  if lvl = "high" then
    match impl p highFlags with
    | .ok q => q
    | .error _ => p
  else if lvl = "medium" then
    match impl p mediumFlags with
    | .ok q => q
    | .error _ => p
  else p

/-- A token of a structured payload, tagged with the identifier categories
the anonymizer recognizes. -/
structure AnonToken where
  text : String
  isName : Bool
  isLocation : Bool
  isDate : Bool
  isPersonalId : Bool
deriving DecidableEq, Repr

/-- Does this anonymization pass strip this token? -/
def strippedBy (f : AnonFlags) (t : AnonToken) : Bool :=
  (f.removeNames && t.isName) || (f.removeLocations && t.isLocation)
    || (f.removeDates && t.isDate) || (f.removePersonalInfo && t.isPersonalId)

/-- Modelled from the spec: the `anonymizeData` implementation of
`utils/dataAnonymizer`, which is required by the source but absent from the
repository.  Per §4.3 it "strips direct name references" (medium) and
"additionally strips locations, dates, and recognized personal-identifier
patterns" (high): stripping is modelled as removing every token of the
selected categories from the payload.  It never throws. -/
def anonymizeDataModel (p : List AnonToken) (f : AnonFlags) :
    Except JsError (List AnonToken) :=
  .ok (List.filter (fun t => !(strippedBy f t)) p)

/-! ## Provider abstraction (`localLLMService.js` and `ChatbotService`) -/

/-- The result object returned by `generateResponse` /
`generateOpenAIResponse` / `getFallbackResponse`. -/
structure GenResult where
  success : Bool
  response : String
  model : String
  privacyCompliant : Bool
  processingTime : Nat
deriving DecidableEq, Repr

/-- The body of a successful `POST /api/generate` reply
(`response.data`, when non-null). -/
structure AxiosData where
  response : String
  evalDuration : Nat
deriving DecidableEq, Repr

/-- The static rule-based response table of `getFallbackResponse`
(lines 133–152 of `localLLMService.js`), in insertion order. -/
def fallbackResponses : List (String × String) :=
  [("hola", "¡Hola! Soy NutriBot, tu asistente de nutrición. ¿En qué puedo ayudarte hoy?"),
   ("nutrición", "Puedo ayudarte con consejos nutricionales, planes de comidas y evaluaciones de salud. ¿Qué te interesa específicamente?"),
   ("evaluación", "Te ayudo a realizar una evaluación de salud personalizada. ¿Estás listo para comenzar?"),
   ("plan", "Puedo crear un plan de comidas adaptado a tus necesidades. ¿Tienes alguna preferencia o restricción alimentaria?"),
   ("peso", "Para ayudarte con objetivos de peso, necesitaría conocer tu situación actual. ¿Te gustaría hacer una evaluación completa?"),
   ("energía", "Los alimentos ricos en nutrientes como frutas, verduras, proteínas magras y granos enteros pueden ayudarte a mantener niveles de energía estables."),
   ("ejercicio", "La nutrición y el ejercicio van de la mano. ¿Te gustaría consejos sobre qué comer antes, durante o después del ejercicio?"),
   ("vegetariano", "Una dieta vegetariana bien planificada puede ser muy saludable. ¿Te gustaría consejos sobre cómo asegurar una nutrición completa?"),
   ("vegano", "Las dietas veganas requieren atención especial a ciertos nutrientes como B12, hierro y calcio. ¿Te gustaría más información?"),
   ("gluten", "Si tienes sensibilidad al gluten, hay muchas alternativas deliciosas disponibles. ¿Te gustaría sugerencias de alimentos?"),
   ("diabetes", "La gestión de la diabetes requiere atención especial a los carbohidratos y el control del azúcar en sangre. Siempre consulta con tu médico."),
   ("colesterol", "Una dieta baja en grasas saturadas y rica en fibra puede ayudar a controlar el colesterol. ¿Te gustaría consejos específicos?"),
   ("presión", "Reducir el sodio y aumentar el potasio puede ayudar con la presión arterial. ¿Te gustaría más información?"),
   ("digestión", "Los alimentos ricos en fibra, probióticos y una buena hidratación pueden mejorar la digestión."),
   ("sueño", "Evitar comidas pesadas antes de dormir y alimentos con cafeína puede mejorar la calidad del sueño."),
   ("estrés", "Alimentos ricos en omega-3, vitaminas B y magnesio pueden ayudar a manejar el estrés."),
   ("privacidad", "Tu privacidad es nuestra prioridad. Todos los datos están encriptados y anonimizados según las leyes españolas de protección de datos."),
   ("ayuda", "Puedo ayudarte con: evaluaciones de salud, consejos nutricionales, planes de comidas, y seguimiento de progreso. ¿Qué necesitas?")]

/-- The generic acknowledgement returned when no keyword matches. -/
def defaultFallbackText : String :=
  "Gracias por tu consulta. Soy NutriBot y estoy aquí para ayudarte con nutrición y salud. ¿Puedes ser más específico sobre lo que necesitas?"

/-- `getFallbackResponse(prompt, context)` (lines 129–175): lower-case the
prompt, return the first table entry whose key the prompt contains
(`Object.entries` iterates in insertion order), else the default
acknowledgement.  (`String.toLower` lower-cases ASCII letters only, which
agrees with `toLowerCase()` on every table key lookup relevant here since
the keys are already lower-case.) -/
def getFallbackResponse (prompt : String) : GenResult :=
  let lowerPrompt := prompt.toLower
  match fallbackResponses.find? (fun kv => jsIncludes lowerPrompt kv.1) with
  | some kv => ⟨true, kv.2, "fallback-rule-based", true, 0⟩
  | none => ⟨true, defaultFallbackText, "fallback-default", true, 0⟩

/-- `LocalLLMService.generateResponse(prompt, context, privacyContext)`
(lines 14–76): anonymize the prompt (fail-open), send it to the local
inference server (the axios call is the external capability `axios`; its
result is `.error` on any network/timeout failure and `.ok none` when the
reply carries no `data`), and return the generated text on a truthy
`response` field; every failure path falls back to the rule-based
responder on the ORIGINAL prompt.  The constant system-prompt prefix added
to the request affects only the external call and is elided. -/
def localGenerateResponse (anonImpl : String → AnonFlags → Except JsError String)
    (level : Option String) (cfgModel : String)
    (axios : String → Except JsError (Option AxiosData))
    (prompt : String) : GenResult :=
  let anonymizedPrompt := anonymizePromptRun anonImpl level prompt
  match axios anonymizedPrompt with
  | .ok (some d) =>
    if d.response ≠ "" then ⟨true, d.response, cfgModel, true, d.evalDuration⟩
    else getFallbackResponse prompt
  | .ok none => getFallbackResponse prompt
  | .error _ => getFallbackResponse prompt

/-- The provider configuration fixed by the `ChatbotService` constructor:
`useLocalLLM` is set from the environment, and the local service instance
`this.localLLM` is created ONLY in the `useLocalLLM` branch (otherwise the
OpenAI client is created instead and `this.localLLM` stays undefined). -/
structure SvcConfig where
  useLocalLLM : Bool
  localModel : String
deriving DecidableEq, Repr

/-- `this.localLLM` is defined exactly when the constructor took the
local branch. -/
def hasLocalLLM (cfg : SvcConfig) : Bool := cfg.useLocalLLM

/-- `ChatbotService.generateLLMResponse(prompt, context, privacyContext)`:
dispatch to the local service or to OpenAI (`openaiImpl` is the external
OpenAI call, already including its own anonymization); on an OpenAI error,
fall back to `this.localLLM` only if it exists — which it never does in the
OpenAI configuration — and otherwise rethrow the error. -/
def generateLLMResponse (cfg : SvcConfig)
    (openaiImpl : String → Except JsError GenResult)
    (anonImpl : String → AnonFlags → Except JsError String)
    (level : Option String)
    (axios : String → Except JsError (Option AxiosData))
    (prompt : String) : Except JsError GenResult :=
  if cfg.useLocalLLM then
    .ok (localGenerateResponse anonImpl level cfg.localModel axios prompt)
  else
    match openaiImpl prompt with
    | .ok r => .ok r
    | .error e =>
      if hasLocalLLM cfg then
        .ok (localGenerateResponse anonImpl level cfg.localModel axios prompt)
      else .error e

/-! ## Assessment state machine (`ChatbotService`) -/

/-- Modelled from the spec: the storage boundary of §1/§4 assumes only an
"encrypt/decrypt/store/delete contract" (`utils/encryption` is absent from
the repository).  Encryption composed with decryption is the identity and
no claim observes ciphertext, so the pair is modelled as the identity; the
`JSON.stringify`/`JSON.parse` round-trip applied at the same call sites is
likewise the identity. -/
def encryptData {α : Type} (x : α) : α := x

/-- Modelled from the spec: inverse of `encryptData`; see there. -/
def decryptData {α : Type} (x : α) : α := x

/-- One recorded answer (`{questionId, answer, confidence, timestamp}`). -/
structure AnswerRec where
  questionId : String
  answer : String
  confidence : Option JsValue
  timestamp : Nat
deriving DecidableEq, Repr

/-- A stored `Assessment` row, with the columns the service reads and
writes.  `answers` is nullable (it is not set at creation and only written
by `processAnswer`). -/
structure AssessmentRec where
  id : String
  userId : String
  status : String
  healthData : String
  anonymizedData : String
  answers : Option (List AnswerRec)
  progress : Nat
  currentQuestion : JsValue
  nextQuestion : Option String
  totalQuestions : Nat
  recommendations : Option String
  createdAt : Nat
  updatedAt : Nat
  completedAt : Option Nat
deriving DecidableEq, Repr

/-- `Assessment.findOne({ where: { id, userId } })`: the owner-scoped
lookup. -/
def findAssessment (store : List AssessmentRec) (aid uid : String) :
    Option AssessmentRec :=
  store.find? (fun a => a.id == aid && a.userId == uid)

/-- A Sequelize instance `update`: rewrite the row(s) with the instance's
primary key `id`. -/
def updateById (store : List AssessmentRec) (aid : String)
    (f : AssessmentRec → AssessmentRec) : List AssessmentRec :=
  store.map (fun b => if b.id == aid then f b else b)

/-- `calculateEstimatedCompletion(totalQuestions)`: two minutes per
question. -/
def calculateEstimatedCompletion (totalQuestions : Nat) : Nat :=
  totalQuestions * 2

/-- The object returned by `startHealthAssessment`. -/
structure StartResult where
  id : String
  status : String
  nextQuestion : String
  progress : Nat
  estimatedCompletion : Nat
deriving DecidableEq, Repr

/-- `ChatbotService.startHealthAssessment({userId, healthData,
privacyContext})`: derive the anonymized copy when the context asks for it
(`anonSvc` is the category-based `anonymizeData(·, 'health_assessment')`
call into the absent anonymizer util), CREATE the row (this persists before
any provider call), then request the first question from the provider
(`llm` is the outcome of that `generateLLMResponse` invocation) and update
the row with it.  Any throw is caught and rethrown as the generic
`'Failed to start health assessment'`; the created row is not removed. -/
def startHealthAssessment (newId : String) (now : Nat)
    (llm : Except JsError String) (anonSvc : String → String)
    (uid : String) (healthData : String) (pc : PrivacyContext)
    (store : List AssessmentRec) :
    Except JsError StartResult × List AssessmentRec :=
  let anonymizedData := if pc.anonymization then anonSvc healthData else healthData
  let a : AssessmentRec :=
    { id := newId
      userId := uid
      status := "in_progress"
      healthData := encryptData healthData
      anonymizedData := encryptData anonymizedData
      answers := none
      progress := 0
      currentQuestion := .vNum 1
      nextQuestion := none
      totalQuestions := 15
      recommendations := none
      createdAt := now
      updatedAt := now
      completedAt := none }
  let store1 := store ++ [a]
  match llm with
  | .error _ => (.error (JsError.mk "Failed to start health assessment"), store1)
  | .ok q =>
    let store2 := updateById store1 newId
      (fun b => { b with currentQuestion := .vStr q, nextQuestion := some q })
    (.ok ⟨newId, "in_progress", q, 0, calculateEstimatedCompletion 15⟩, store2)

/-- The object returned by `processAnswer` (the completed branch returns
early without `nextQuestion`/`estimatedCompletion`). -/
structure AnswerResult where
  status : String
  nextQuestion : Option String
  recommendations : Option String
  progress : Nat
  estimatedCompletion : Option Nat
deriving DecidableEq, Repr

/-- `ChatbotService.processAnswer({userId, assessmentId, questionId,
answer, confidence, privacyContext})`: look the assessment up by
`(id, userId)`; push the new answer onto the decrypted answer list;
compute `progress = Math.round((answers.length / totalQuestions) * 100)`;
then EITHER (when the list has reached `totalQuestions`) request final
recommendations from the provider and persist
`{status: completed, progress: 100, answers, recommendations}`, OR request
the next question and persist `{currentQuestion, answers, progress,
nextQuestion}`.  `llm` is the outcome of the single provider invocation
performed by the call.  Every throw — lookup miss or provider error —
is caught and rethrown as the generic `'Failed to process answer'`, with
no store mutation (the `update` only runs after the provider call
returns).  There is no status guard and no duplicate-answer check. -/
def processAnswer (llm : Except JsError String) (now : Nat)
    (store : List AssessmentRec) (uid aid qid ans : String)
    (conf : Option JsValue) :
    Except JsError AnswerResult × List AssessmentRec :=
  match findAssessment store aid uid with
  | none => (.error (JsError.mk "Failed to process answer"), store)
  | some a =>
    let answers := (a.answers.map decryptData).getD []
    let answers1 := answers ++ [⟨qid, ans, conf, now⟩]
    let progress := jsRoundPct answers1.length a.totalQuestions
    if answers1.length ≥ a.totalQuestions then
      match llm with
      | .error _ => (.error (JsError.mk "Failed to process answer"), store)
      | .ok recs =>
        let store1 := updateById store aid (fun b =>
          { b with status := "completed", progress := 100,
                   answers := some (encryptData answers1),
                   recommendations := some (encryptData recs),
                   completedAt := some now })
        (.ok ⟨"completed", none, some recs, 100, none⟩, store1)
    else
      match llm with
      | .error _ => (.error (JsError.mk "Failed to process answer"), store)
      | .ok nq =>
        let store1 := updateById store aid (fun b =>
          { b with currentQuestion := .vNum (answers1.length + 1),
                   answers := some (encryptData answers1),
                   progress := progress,
                   nextQuestion := some nq })
        (.ok ⟨a.status, some nq, none, progress,
              some (calculateEstimatedCompletion a.totalQuestions)⟩, store1)

/-- The projection returned by `getAssessment`. -/
structure GetResult where
  id : String
  status : String
  progress : Nat
  healthData : Option String
  answers : List AnswerRec
  recommendations : Option String
  createdAt : Nat
  completedAt : Option Nat
deriving DecidableEq, Repr

/-- `ChatbotService.getAssessment({userId, assessmentId, privacyContext})`:
owner-scoped lookup and decrypted projection; raw health data only when
`privacyContext.includeHealthData` is truthy.  A lookup miss throws
`'Assessment not found'`, which the catch block rethrows as the generic
`'Failed to retrieve assessment'`. -/
def getAssessment (store : List AssessmentRec) (uid aid : String)
    (includeHealthData : Bool) : Except JsError GetResult :=
  match findAssessment store aid uid with
  | none => .error (JsError.mk "Failed to retrieve assessment")
  | some a =>
    .ok ⟨a.id, a.status, a.progress,
         if includeHealthData then some (decryptData a.healthData) else none,
         (a.answers.map decryptData).getD [],
         a.recommendations.map decryptData,
         a.createdAt, a.completedAt⟩

/-- `ChatbotService.deleteAssessment({userId, assessmentId})`: owner-scoped
lookup, then `assessment.destroy()` — a hard delete of the row with that
primary key.  A lookup miss throws `'Assessment not found'`, rethrown by
the catch block as the generic `'Failed to delete assessment'`. -/
def deleteAssessment (store : List AssessmentRec) (uid aid : String) :
    Except JsError String × List AssessmentRec :=
  match findAssessment store aid uid with
  | none => (.error (JsError.mk "Failed to delete assessment"), store)
  | some _ =>
    (.ok "Assessment permanently deleted",
     store.filter (fun b => !(b.id == aid)))

/-- Run a sequence of `(questionId, answer, providerResponse)` submissions
through `processAnswer`, each provider call succeeding. -/
def submitRun (now : Nat) (uid aid : String)
    (subs : List (String × String × String)) (store : List AssessmentRec) :
    List AssessmentRec :=
  subs.foldl
    (fun st s => (processAnswer (.ok s.2.2) now st uid aid s.1 s.2.1 none).2)
    store

/-- The stores reachable through the assessment operations, from the empty
store, with arbitrary inputs and arbitrary external-capability outcomes. -/
inductive Reach : List AssessmentRec → Prop where
  | empty : Reach []
  | start (newId : String) (now : Nat) (llm : Except JsError String)
      (anonSvc : String → String) (uid healthData : String)
      (pc : PrivacyContext) {st : List AssessmentRec} :
      Reach st →
      Reach (startHealthAssessment newId now llm anonSvc uid healthData pc st).2
  | answer (llm : Except JsError String) (now : Nat)
      (uid aid qid ans : String) (conf : Option JsValue)
      {st : List AssessmentRec} :
      Reach st → Reach (processAnswer llm now st uid aid qid ans conf).2
  | erase (uid aid : String) {st : List AssessmentRec} :
      Reach st → Reach (deleteAssessment st uid aid).2

/-- A fixed privacy context used by concrete executions below. -/
def pcEx : PrivacyContext :=
  { timestamp := 0, ipAddress := "127.0.0.1", userAgent := none,
    consentValid := false, dataMinimization := false, anonymization := false,
    gdprCompliance := true, lopdgddCompliance := true }

/-- The store right after a successful `startHealthAssessment` of the
concrete execution used to probe the progress invariant. -/
def exStartStore : List AssessmentRec :=
  (startHealthAssessment "a1" 0 (.ok "q0") id "u1" "hd" pcEx []).2

/-- One concrete successful `processAnswer` submission against that
assessment. -/
def exStep (st : List AssessmentRec) : List AssessmentRec :=
  (processAnswer (.ok "resp") 0 st "u1" "a1" "q" "si" none).2

/-- The concrete store after sixteen successful submissions: fifteen
complete the assessment and the sixteenth is still accepted (there is
no status guard). -/
def exStore16 : List AssessmentRec := exStep^[16] exStartStore

/-! ## Shared lemmas -/

/-- Filtering twice with the same predicate equals filtering once. -/
theorem filter_self_idem {α : Type} (p : α → Bool) (l : List α) :
    List.filter p (List.filter p l) = List.filter p l := by
  induction l with
  | nil => rfl
  | cons a t ih =>
    cases hp : p a <;> simp [List.filter_cons, hp, ih]

/-- Unfolding of `truthyLookup` on a cons cell. -/
theorem truthyLookup_cons (kv : String × JsValue) (t : JsObj) (k : String) :
    truthyLookup (kv :: t) k
      = if kv.1 == k then kv.2.truthy else truthyLookup t k := by
  simp only [truthyLookup, objGet, List.find?]
  cases h : (kv.1 == k) <;> simp [h]

/-- Deleting a key makes its lookup `undefined`. -/
theorem objGet_objDelete_self (o : JsObj) (k : String) :
    objGet (objDelete o k) k = none := by
  simp only [objGet, objDelete]
  rw [Option.map_eq_none', List.find?_eq_none]
  intro kv hkv
  rcases List.mem_filter.mp hkv with ⟨_, hkeep⟩
  simpa using hkeep

/-- Deleting any key preserves a falsy lookup. -/
theorem truthyLookup_objDelete (o : JsObj) (j k : String)
    (h : truthyLookup o k = false) :
    truthyLookup (objDelete o j) k = false := by
  induction o with
  | nil => simpa [objDelete] using h
  | cons kv t ih =>
    rw [truthyLookup_cons] at h
    by_cases hj : (kv.1 == j)
    · have hdrop : objDelete (kv :: t) j = objDelete t j := by
        simp [objDelete, List.filter_cons, hj]
      rw [hdrop]
      by_cases hk : (kv.1 == k)
      · have hjk : j = k := (eq_of_beq hj).symm.trans (eq_of_beq hk)
        subst hjk
        simp [truthyLookup, objGet_objDelete_self]
      · exact ih (by simpa [hk] using h)
    · have hkeep : objDelete (kv :: t) j = kv :: objDelete t j := by
        simp [objDelete, List.filter_cons, hj]
      rw [hkeep, truthyLookup_cons]
      by_cases hk : (kv.1 == k)
      · simpa [hk] using h
      · exact (by simpa [hk] using ih (by simpa [hk] using h))

/-- After its own deny-list iteration, an identifier's lookup is falsy. -/
theorem truthyLookup_denyStep_self (acc : JsObj) (k : String) :
    truthyLookup (denyStep acc k) k = false := by
  unfold denyStep
  cases h : truthyLookup acc k
  · simp [h]
  · simp [h, truthyLookup, objGet_objDelete_self]

/-- A deny-list iteration for one identifier preserves falsy lookups of
every identifier. -/
theorem truthyLookup_denyStep_preserve (acc : JsObj) (j k : String)
    (h : truthyLookup acc k = false) :
    truthyLookup (denyStep acc j) k = false := by
  unfold denyStep
  cases hj : truthyLookup acc j
  · simpa using h
  · simpa using truthyLookup_objDelete acc j k h

/-- The whole deny-list loop preserves falsy lookups. -/
theorem truthyLookup_foldl_preserve (l : List String) (acc : JsObj)
    (k : String) (h : truthyLookup acc k = false) :
    truthyLookup (l.foldl denyStep acc) k = false := by
  induction l generalizing acc with
  | nil => simpa using h
  | cons j t ih => exact ih (denyStep acc j) (truthyLookup_denyStep_preserve acc j k h)

/-- After the deny-list loop, every processed identifier's lookup is falsy. -/
theorem truthyLookup_foldl_mem (l : List String) (k : String) :
    ∀ acc : JsObj, k ∈ l → truthyLookup (l.foldl denyStep acc) k = false := by
  induction l with
  | nil => intro acc h; cases h
  | cons j t ih =>
    intro acc h
    rcases List.mem_cons.mp h with h | h
    · subst h
      exact truthyLookup_foldl_preserve t (denyStep acc k) k
        (truthyLookup_denyStep_self acc k)
    · exact ih (denyStep acc j) h

/-- The deny-list loop only removes entries. -/
theorem mem_foldl_denyStep (l : List String) (acc : JsObj)
    (kv : String × JsValue) (h : kv ∈ l.foldl denyStep acc) : kv ∈ acc := by
  induction l generalizing acc with
  | nil => simpa using h
  | cons j t ih =>
    have h1 : kv ∈ denyStep acc j := ih (denyStep acc j) h
    unfold denyStep at h1
    cases hj : truthyLookup acc j
    · simpa [hj] using h1
    · rw [hj] at h1
      simp only [if_true] at h1
      exact (List.mem_filter.mp h1).1

/-- Every rule-based fallback response text is non-empty, and the default
acknowledgement is non-empty. -/
theorem fallbackResponses_ne_empty :
    (∀ kv ∈ fallbackResponses, kv.2 ≠ "") ∧ defaultFallbackText ≠ "" := by
  decide

/-- The fallback responder always reports success with one of the two
fallback model tags. -/
theorem getFallbackResponse_shape (prompt : String) :
    (getFallbackResponse prompt).success = true
    ∧ ((getFallbackResponse prompt).model = "fallback-rule-based"
        ∨ (getFallbackResponse prompt).model = "fallback-default") := by
  unfold getFallbackResponse
  cases h : fallbackResponses.find? (fun kv => jsIncludes prompt.toLower kv.1) <;>
    simp [h]

/-- The local provider never returns an empty response text: a falsy
`response` field in the server reply is itself routed to the fallback
responder, and all canned responses are non-empty. -/
theorem localGenerateResponse_ne_empty
    (anonImpl : String → AnonFlags → Except JsError String)
    (level : Option String) (cfgModel : String)
    (axios : String → Except JsError (Option AxiosData)) (prompt : String) :
    (localGenerateResponse anonImpl level cfgModel axios prompt).response ≠ "" := by
  have hfb : (getFallbackResponse prompt).response ≠ "" := by
    unfold getFallbackResponse
    cases h : fallbackResponses.find? (fun kv => jsIncludes prompt.toLower kv.1) with
    | none => simpa [h] using fallbackResponses_ne_empty.2
    | some kv =>
      have hm := List.mem_of_find?_eq_some h
      simpa [h] using fallbackResponses_ne_empty.1 kv hm
  unfold localGenerateResponse
  cases hax : axios (anonymizePromptRun anonImpl level prompt) with
  | error e => simpa [hax] using hfb
  | ok d =>
    cases d with
    | none => simpa [hax] using hfb
    | some v =>
      by_cases hv : v.response = ""
      · simpa [hax, hv] using hfb
      · simp [localGenerateResponse, hax, hv]

/-- The flag fields of a freshly built privacy context copy the
environment configuration. -/
theorem buildPrivacyContext_flags (now : Nat) (env : EnvConfig)
    (valC : String → Bool) (req : ReqData) :
    (buildPrivacyContext now env valC req).dataMinimization
        = env.dataMinimizationEnabled
    ∧ (buildPrivacyContext now env valC req).anonymization
        = env.anonymizationEnabled := by
  unfold buildPrivacyContext
  cases h : resolveConsentToken req <;> simp

/-- When the standard privacy middleware passes, its context is the freshly
built one and its trace holds only payload-transformation events — in
particular no provider call and no consent check. -/
theorem privacyMiddleware_pass (now : Nat) (env : EnvConfig)
    (valC : String → Bool) (anonExt : JsObj → String → Except JsError JsObj)
    (req : ReqData) (ctx : PrivacyContext) (body : Option JsObj)
    (tr : List MwStep)
    (h : privacyMiddleware now env valC anonExt req = .pass ctx body tr) :
    ctx = buildPrivacyContext now env valC req
    ∧ MwStep.providerCallStep ∉ tr ∧ MwStep.consentCheckStep ∉ tr := by
  simp only [privacyMiddleware] at h
  cases hb : req.body with
  | none =>
    rw [hb] at h
    simp only [MwOutcome.pass.injEq] at h
    obtain ⟨h1, h2, h3⟩ := h
    subst h1; subst h3
    exact ⟨rfl, by simp, by simp⟩
  | some b =>
    rw [hb] at h
    cases hmin : (buildPrivacyContext now env valC req).dataMinimization <;>
      cases hanon : (buildPrivacyContext now env valC req).anonymization
    · simp only [hmin, hanon, Bool.false_eq_true, if_false,
        MwOutcome.pass.injEq] at h
      obtain ⟨h1, h2, h3⟩ := h
      subst h1; subst h3
      exact ⟨rfl, by simp, by simp⟩
    · simp only [hmin, hanon, Bool.false_eq_true, if_false, if_true] at h
      cases hax : anonExt b req.path with
      | ok b2 =>
        rw [hax] at h
        simp only [MwOutcome.pass.injEq] at h
        obtain ⟨h1, h2, h3⟩ := h
        subst h1; subst h3
        exact ⟨rfl, by simp, by simp⟩
      | error e => rw [hax] at h; cases h
    · simp only [hmin, hanon, Bool.false_eq_true, if_false, if_true,
        MwOutcome.pass.injEq] at h
      obtain ⟨h1, h2, h3⟩ := h
      subst h1; subst h3
      exact ⟨rfl, by simp, by simp⟩
    · simp only [hmin, hanon, if_true] at h
      cases hax : anonExt (minimizeData b req.path) req.path with
      | ok b2 =>
        rw [hax] at h
        simp only [MwOutcome.pass.injEq] at h
        obtain ⟨h1, h2, h3⟩ := h
        subst h1; subst h3
        exact ⟨rfl, by simp, by simp⟩
      | error e => rw [hax] at h; cases h

/-! ## Claims -/

/-- Claim C10: a request carrying neither an `x-consent-token` header nor a
`consentToken` cookie yields a freshly built privacy context with
`consentValid == false`, and `consentValid` can only become `true` when a
token is present and the external `validateConsent` capability accepts
it. -/
theorem c10_consent_default (now : Nat) (env : EnvConfig)
    (valC : String → Bool) (req : ReqData) :
    (req.headerConsentToken = none → req.cookieConsentToken = none →
      (buildPrivacyContext now env valC req).consentValid = false)
    ∧ ((buildPrivacyContext now env valC req).consentValid = true →
      ∃ t, resolveConsentToken req = some t ∧ valC t = true) := by
  unfold buildPrivacyContext
  cases hres : resolveConsentToken req with
  | none => exact ⟨fun _ _ => rfl, fun hc => absurd hc (by simp)⟩
  | some t =>
    constructor
    · intro hh hcook
      exfalso
      simp [resolveConsentToken, hh, hcook] at hres
    · intro hc
      exact ⟨t, rfl, by simpa using hc⟩

/-- Witness for C10: a tokenless request gets an invalid-consent context
even with a permissive validator and all compliance flags on. -/
theorem c10_witness :
    (buildPrivacyContext 0 ⟨true, true, true, true⟩ (fun _ => true)
        ⟨"/api/advice", none, none, none, "127.0.0.1", none⟩).consentValid
      = false :=
  (c10_consent_default 0 ⟨true, true, true, true⟩ (fun _ => true)
      ⟨"/api/advice", none, none, none, "127.0.0.1", none⟩).1 rfl rfl

/-- Claim C7: anonymization is idempotent at every fixed level in
{low, medium, high}, and level `low` is a pass-through.  The underlying
`anonymizeData` (absent from the repository) is the spec-modelled
category stripper `anonymizeDataModel`. -/
theorem c7_anonymize_idempotent (p : List AnonToken) (lvl : String)
    (hlvl : lvl = "low" ∨ lvl = "medium" ∨ lvl = "high") :
    anonymizePromptRun anonymizeDataModel (some lvl)
        (anonymizePromptRun anonymizeDataModel (some lvl) p)
      = anonymizePromptRun anonymizeDataModel (some lvl) p
    ∧ anonymizePromptRun anonymizeDataModel (some "low") p = p := by
  have hlow : ∀ q : List AnonToken,
      anonymizePromptRun anonymizeDataModel (some "low") q = q := by
    intro q
    simp [anonymizePromptRun, levelOrDefault]
  refine ⟨?_, hlow p⟩
  rcases hlvl with h | h | h <;> subst h
  · simp [hlow]
  · simp [anonymizePromptRun, levelOrDefault, anonymizeDataModel,
      filter_self_idem]
  · simp [anonymizePromptRun, levelOrDefault, anonymizeDataModel,
      filter_self_idem]

/-- Witness for C7: idempotence and low-level pass-through at a concrete
two-token payload holding one name token. -/
theorem c7_witness :
    anonymizePromptRun anonymizeDataModel (some "medium")
        (anonymizePromptRun anonymizeDataModel (some "medium")
          [⟨"Juan", true, false, false, false⟩,
           ⟨"manzana", false, false, false, false⟩])
      = anonymizePromptRun anonymizeDataModel (some "medium")
          [⟨"Juan", true, false, false, false⟩,
           ⟨"manzana", false, false, false, false⟩]
    ∧ anonymizePromptRun anonymizeDataModel (some "low")
        [⟨"Juan", true, false, false, false⟩,
         ⟨"manzana", false, false, false, false⟩]
      = [⟨"Juan", true, false, false, false⟩,
         ⟨"manzana", false, false, false, false⟩] :=
  c7_anonymize_idempotent
    [⟨"Juan", true, false, false, false⟩,
     ⟨"manzana", false, false, false, false⟩]
    "medium" (Or.inr (Or.inl rfl))

/-- Counterexample for C9: the deny-list removal is guarded by JavaScript
truthiness, so a deny-listed identifier holding a falsy value (here
`email: ""`) survives minimization — the claim that every deny-list field
is always removed is false. -/
theorem c9_counterexample :
    minimizeData [("email", JsValue.vStr "")] "/api/user/profile"
        = [("email", JsValue.vStr "")]
    ∧ "email" ∈ personalIdentifiers := by
  decide

/-- Claim C9 (amended): `minimizeData` leaves every deny-listed identifier
unreadable-as-truthy (it removes the field whenever its value is truthy;
a falsy-valued identifier field may remain), and on chatbot paths every
surviving field is allow-listed. -/
theorem c9_minimize_amended (data : JsObj) (path : String) :
    (∀ k, k ∈ personalIdentifiers →
      truthyLookup (minimizeData data path) k = false)
    ∧ (jsIncludes path "/chatbot/" = true →
      ∀ kv, kv ∈ minimizeData data path → kv.1 ∈ allowedFields) := by
  constructor
  · intro k hk
    unfold minimizeData
    exact truthyLookup_foldl_mem personalIdentifiers k _ hk
  · intro hpath kv hkv
    unfold minimizeData at hkv
    simp only [hpath, if_true] at hkv
    have h1 := mem_foldl_denyStep personalIdentifiers _ kv hkv
    have h2 := (List.mem_filter.mp h1).2
    simpa using h2

/-- Witness for C9 (amended): on a chatbot path, a truthy `email` is
removed and an off-allow-list field is dropped. -/
theorem c9_witness :
    truthyLookup
        (minimizeData [("email", JsValue.vStr "x"), ("age", JsValue.vNum 30)]
          "/api/chatbot/advice") "email" = false
    ∧ ∀ kv, kv ∈ minimizeData
          [("email", JsValue.vStr "x"), ("age", JsValue.vNum 30)]
          "/api/chatbot/advice" → kv.1 ∈ allowedFields :=
  ⟨(c9_minimize_amended
      [("email", JsValue.vStr "x"), ("age", JsValue.vNum 30)]
      "/api/chatbot/advice").1 "email" (by decide),
   (c9_minimize_amended
      [("email", JsValue.vStr "x"), ("age", JsValue.vNum 30)]
      "/api/chatbot/advice").2 (by decide)⟩

/-- Counterexample for C1: on a health path with no consent token and
minimization/anonymization enabled, the request IS rejected with
403/`HEALTH_CONSENT_REQUIRED`, but the trace shows the minimization and
anonymization of the request payload happening BEFORE the consent check —
the check does not run strictly before them. -/
theorem c1_counterexample :
    enhancedPrivacyMiddleware 0 ⟨true, true, true, true⟩ (fun _ => false)
        (fun b _ => .ok b)
        ⟨"/health-assessment", none, none, some [("age", JsValue.vNum 30)],
         "127.0.0.1", none⟩
      = .reject 403 "HEALTH_CONSENT_REQUIRED"
          [.minimizeStep, .anonymizeStep, .consentCheckStep]
    ∧ consentFirst [.minimizeStep, .anonymizeStep, .consentCheckStep]
        = false := by
  decide

/-- Claim C1 (amended): a health/medical-path request whose privacy context
has `consentValid == false` is rejected with 403/`HEALTH_CONSENT_REQUIRED`
and the provider is never called (the route handler does not run) — but the
consent check runs AFTER the standard privacy middleware, i.e. after any
minimization/anonymization of the payload, not strictly before. -/
theorem c1_health_gate_amended
    (handler : PrivacyContext → Option JsObj → RouteResult × List MwStep)
    (now : Nat) (env : EnvConfig) (valC : String → Bool)
    (anonExt : JsObj → String → Except JsError JsObj) (req : ReqData)
    (ctx : PrivacyContext) (body : Option JsObj) (tr : List MwStep)
    (hpath : isHealthPath req.path = true)
    (hpm : privacyMiddleware now env valC anonExt req = .pass ctx body tr)
    (hconsent : ctx.consentValid = false) :
    runRoute handler now env valC anonExt req
        = (.rejected 403 "HEALTH_CONSENT_REQUIRED", tr ++ [.consentCheckStep])
    ∧ MwStep.providerCallStep ∉ tr ++ [MwStep.consentCheckStep] := by
  have htr := (privacyMiddleware_pass now env valC anonExt req ctx body tr hpm).2.1
  constructor
  · unfold runRoute enhancedPrivacyMiddleware
    rw [hpm, hpath]
    simp [hconsent]
  · intro hmem
    rcases List.mem_append.mp hmem with hmem | hmem
    · exact htr hmem
    · simp at hmem

/-- Witness for C1 (amended): the concrete rejected run (flags off, empty
trace) with a handler that would have recorded a provider call. -/
theorem c1_witness :
    runRoute (fun _ _ => (.success "advice", [.providerCallStep])) 0
        ⟨false, false, false, false⟩ (fun _ => false) (fun b _ => .ok b)
        ⟨"/health-assessment", none, none, none, "127.0.0.1", none⟩
      = (.rejected 403 "HEALTH_CONSENT_REQUIRED", [MwStep.consentCheckStep])
    ∧ MwStep.providerCallStep ∉ [MwStep.consentCheckStep] := by
  have h := c1_health_gate_amended
    (fun _ _ => (.success "advice", [.providerCallStep])) 0
    ⟨false, false, false, false⟩ (fun _ => false) (fun b _ => .ok b)
    ⟨"/health-assessment", none, none, none, "127.0.0.1", none⟩
    ⟨0, "127.0.0.1", none, false, false, false, false, false⟩ none []
    (by decide) rfl rfl
  simpa using h

/-- Counterexample for C8: with anonymization enabled in the middleware, an
`anonymizeData` throw is NOT absorbed: the middleware propagates the error
(`next(error)`) and the request fails, instead of continuing with the
original payload. -/
theorem c8_counterexample :
    mwFailed (privacyMiddleware 0 ⟨false, true, true, true⟩ (fun _ => false)
        (fun _ _ => .error (JsError.mk "anonymizer crashed"))
        ⟨"/api/chatbot/advice", none, none, some [("notes", JsValue.vStr "x")],
         "127.0.0.1", none⟩)
      = true := by
  decide

/-- Claim C8 (amended): the pre-provider anonymization step
(`anonymizePrompt` in the local LLM service) is fail-open — when the
underlying `anonymizeData` call throws, the original payload is returned
unchanged and processing continues; the privacy middleware's own
anonymization step has no such fallback — an `anonymizeData` error there
fails the request (and `minimizeData` has no failure path or fallback
wrapper of its own at all). -/
theorem c8_failopen_amended :
    (∀ (α : Type) (impl : α → AnonFlags → Except JsError α)
        (level : Option String) (p : α),
      (∀ f, ∃ e, impl p f = .error e) →
      anonymizePromptRun impl level p = p)
    ∧ (∀ (now : Nat) (env : EnvConfig) (valC : String → Bool)
        (anonExt : JsObj → String → Except JsError JsObj)
        (req : ReqData) (b : JsObj) (e : JsError),
      env.anonymizationEnabled = true → req.body = some b →
      anonExt (if env.dataMinimizationEnabled then minimizeData b req.path
               else b) req.path = .error e →
      mwFailed (privacyMiddleware now env valC anonExt req) = true) := by
  constructor
  · intro α impl level p h
    unfold anonymizePromptRun
    by_cases h1 : levelOrDefault level = "high"
    · obtain ⟨e, he⟩ := h highFlags
      simp [h1, he]
    · by_cases h2 : levelOrDefault level = "medium"
      · obtain ⟨e, he⟩ := h mediumFlags
        simp [h1, h2, he]
      · simp [h1, h2]
  · intro now env valC anonExt req b e hanon hb hax
    have hflags := buildPrivacyContext_flags now env valC req
    unfold privacyMiddleware
    rw [hb]
    cases hmin : env.dataMinimizationEnabled
    · rw [hmin] at hax
      simp only [hflags.1, hflags.2, hmin, hanon, Bool.false_eq_true,
        if_false, if_true]
      simp only [Bool.false_eq_true, if_false] at hax
      rw [hax]
      rfl
    · rw [hmin] at hax
      simp only [hflags.1, hflags.2, hmin, hanon, if_true]
      simp only [if_true] at hax
      rw [hax]
      rfl

/-- Witness for C8 (amended): a concrete throwing anonymizer leaves a
concrete prompt untouched at level high, and a concrete middleware run with
a throwing anonymizer fails the request. -/
theorem c8_witness :
    anonymizePromptRun (fun (_ : String) _ => .error (JsError.mk "boom"))
        (some "high") "hola NutriBot" = "hola NutriBot"
    ∧ mwFailed (privacyMiddleware 0 ⟨true, true, true, true⟩ (fun _ => false)
        (fun _ _ => .error (JsError.mk "boom"))
        ⟨"/api/chatbot/advice", none, none, some [("age", JsValue.vNum 30)],
         "127.0.0.1", none⟩)
      = true :=
  ⟨c8_failopen_amended.1 String (fun _ _ => .error (JsError.mk "boom"))
      (some "high") "hola NutriBot" (fun _ => ⟨JsError.mk "boom", rfl⟩),
   c8_failopen_amended.2 0 ⟨true, true, true, true⟩ (fun _ => false)
      (fun _ _ => .error (JsError.mk "boom"))
      ⟨"/api/chatbot/advice", none, none, some [("age", JsValue.vNum 30)],
       "127.0.0.1", none⟩
      [("age", JsValue.vNum 30)] (JsError.mk "boom") rfl rfl rfl⟩

/-- Counterexample for C3: in the OpenAI configuration
(`useLocalLLM = false`) the constructor never creates `this.localLLM`, so
when the primary provider fails, `generateLLMResponse` rethrows the error
instead of returning a rule-based fallback response — even though a healthy
local inference server is reachable. -/
theorem c3_counterexample :
    generateLLMResponse ⟨false, "mistral:7b"⟩
        (fun _ => .error (JsError.mk "OpenAI API error"))
        (fun s _ => .ok s) (some "medium")
        (fun _ => .ok (some ⟨"respuesta del servidor", 1⟩))
        "dame un consejo de nutrición"
      = .error (JsError.mk "OpenAI API error") := by
  rfl

/-- Claim C3 (amended): in the local configuration (`useLocalLLM = true`) a
failing provider call always degrades to a successful rule-based response
whose model is `fallback-rule-based` (matched key) or `fallback-default` —
never an unhandled failure; in the OpenAI configuration no local fallback
exists (the constructor never initialises it) and a primary failure is
rethrown to the caller. -/
theorem c3_fallback_amended (cfg : SvcConfig)
    (openaiImpl : String → Except JsError GenResult)
    (anonImpl : String → AnonFlags → Except JsError String)
    (level : Option String)
    (axios : String → Except JsError (Option AxiosData)) (prompt : String) :
    (cfg.useLocalLLM = true →
      (∀ s, ∃ e, axios s = .error e) →
      ∃ r, generateLLMResponse cfg openaiImpl anonImpl level axios prompt
            = .ok r
        ∧ r.success = true
        ∧ (r.model = "fallback-rule-based" ∨ r.model = "fallback-default"))
    ∧ (cfg.useLocalLLM = false → ∀ e, openaiImpl prompt = .error e →
        generateLLMResponse cfg openaiImpl anonImpl level axios prompt
          = .error e) := by
  constructor
  · intro hlocal hax
    obtain ⟨e, he⟩ := hax (anonymizePromptRun anonImpl level prompt)
    have hfall : localGenerateResponse anonImpl level cfg.localModel axios prompt
        = getFallbackResponse prompt := by
      simp only [localGenerateResponse]
      rw [he]
    refine ⟨getFallbackResponse prompt, ?_, ?_, ?_⟩
    · unfold generateLLMResponse
      rw [hlocal, if_pos rfl, hfall]
    · exact (getFallbackResponse_shape prompt).1
    · exact (getFallbackResponse_shape prompt).2
  · intro hlocal e hop
    unfold generateLLMResponse
    rw [hlocal]
    simp [hop, hasLocalLLM, hlocal]

/-- Witness for C3 (amended): with the local provider configured and the
inference server unreachable, a concrete advice prompt still gets a
successful fallback response; with OpenAI configured, a concrete failure is
rethrown. -/
theorem c3_witness :
    (∃ r, generateLLMResponse ⟨true, "mistral:7b"⟩
          (fun _ => .error (JsError.mk "no key"))
          (fun s _ => .ok s) (some "medium")
          (fun _ => .error (JsError.mk "ECONNREFUSED"))
          "necesito un plan de comidas"
        = .ok r
      ∧ r.success = true
      ∧ (r.model = "fallback-rule-based" ∨ r.model = "fallback-default"))
    ∧ generateLLMResponse ⟨false, "mistral:7b"⟩
          (fun _ => .error (JsError.mk "timeout"))
          (fun s _ => .ok s) (some "medium")
          (fun _ => .error (JsError.mk "ECONNREFUSED"))
          "necesito un plan de comidas"
        = .error (JsError.mk "timeout") :=
  ⟨(c3_fallback_amended ⟨true, "mistral:7b"⟩
      (fun _ => .error (JsError.mk "no key")) (fun s _ => .ok s)
      (some "medium") (fun _ => .error (JsError.mk "ECONNREFUSED"))
      "necesito un plan de comidas").1 rfl
      (fun _ => ⟨JsError.mk "ECONNREFUSED", rfl⟩),
   (c3_fallback_amended ⟨false, "mistral:7b"⟩
      (fun _ => .error (JsError.mk "timeout")) (fun s _ => .ok s)
      (some "medium") (fun _ => .error (JsError.mk "ECONNREFUSED"))
      "necesito un plan de comidas").2 rfl (JsError.mk "timeout") rfl⟩

/-- After a hard delete of an id (primary-key destroy), the owner-scoped
lookup of that id misses. -/
theorem findAssessment_after_destroy (store : List AssessmentRec)
    (aid uid : String) :
    findAssessment (store.filter (fun b => !(b.id == aid))) aid uid
      = none := by
  unfold findAssessment
  rw [List.find?_eq_none]
  intro a ha
  rcases List.mem_filter.mp ha with ⟨_, hkeep⟩
  simp only [Bool.not_eq_eq_eq_not, Bool.not_true, beq_eq_false_iff_ne,
    ne_eq] at hkeep
  simp [hkeep]

/-- A member of an updated store that carries the updated id comes from
applying the update to a store member whose id matches. -/
theorem mem_updateById_matching (store : List AssessmentRec) (aid : String)
    (f : AssessmentRec → AssessmentRec) (b : AssessmentRec)
    (hb : b ∈ updateById store aid f) (hbid : b.id = aid) :
    ∃ c, c ∈ store ∧ (c.id == aid) = true ∧ b = f c := by
  unfold updateById at hb
  rcases List.mem_map.mp hb with ⟨c, hcmem, hceq⟩
  by_cases hc : (c.id == aid)
  · rw [if_pos hc] at hceq
    exact ⟨c, hcmem, hc, hceq.symm⟩
  · rw [if_neg hc] at hceq
    subst hceq
    exact absurd (beq_iff_eq.mpr hbid) hc

/-- Counterexample for C4: a delete on a missing id fails with the
operation's generic wrapped error, not with the not-found error — the
service's catch block swallows `'Assessment not found'` and rethrows
`'Failed to delete assessment'`, which the route surfaces as a 500-coded
generic error. -/
theorem c4_counterexample :
    deleteAssessment [] "u1" "missing"
        = (.error (JsError.mk "Failed to delete assessment"), [])
    ∧ JsError.mk "Failed to delete assessment"
        ≠ JsError.mk "Assessment not found" :=
  ⟨rfl, by decide⟩

/-- Claim C4 (amended): every owner-scoped operation on an unmatched
(id, ownerId) pair fails — never a silent success — but with the
operation's generic wrapped error (`Failed to process answer` /
`Failed to delete assessment` / `Failed to retrieve assessment`) rather
than a NotFoundError, because each catch block swallows the internal
`'Assessment not found'`; delete followed by get likewise fails with the
generic retrieval error, as does a repeat delete. -/
theorem c4_notfound_amended (store : List AssessmentRec) (uid aid : String)
    (llm : Except JsError String) (now : Nat) (qid ans : String)
    (conf : Option JsValue) (ihd : Bool) :
    (findAssessment store aid uid = none →
      (processAnswer llm now store uid aid qid ans conf).1
          = .error (JsError.mk "Failed to process answer")
      ∧ deleteAssessment store uid aid
          = (.error (JsError.mk "Failed to delete assessment"), store)
      ∧ getAssessment store uid aid ihd
          = .error (JsError.mk "Failed to retrieve assessment"))
    ∧ (∀ a, findAssessment store aid uid = some a →
        getAssessment (deleteAssessment store uid aid).2 uid aid ihd
          = .error (JsError.mk "Failed to retrieve assessment")) := by
  constructor
  · intro hnone
    refine ⟨?_, ?_, ?_⟩
    · unfold processAnswer
      rw [hnone]
    · unfold deleteAssessment
      rw [hnone]
    · unfold getAssessment
      rw [hnone]
  · intro a hsome
    have h2 : (deleteAssessment store uid aid).2
        = store.filter (fun b => !(b.id == aid)) := by
      unfold deleteAssessment
      rw [hsome]
    rw [h2]
    unfold getAssessment
    rw [findAssessment_after_destroy]

/-- Witness for C4 (amended): the three generic failures on an empty store,
and delete-then-get on a concrete one-assessment store. -/
theorem c4_witness :
    ((processAnswer (.ok "q") 0 [] "u1" "missing" "q1" "si" none).1
        = .error (JsError.mk "Failed to process answer")
      ∧ deleteAssessment [] "u1" "missing"
        = (.error (JsError.mk "Failed to delete assessment"), [])
      ∧ getAssessment [] "u1" "missing" false
        = .error (JsError.mk "Failed to retrieve assessment"))
    ∧ getAssessment (deleteAssessment exStartStore "u1" "a1").2 "u1" "a1" false
        = .error (JsError.mk "Failed to retrieve assessment") :=
  ⟨(c4_notfound_amended [] "u1" "missing" (.ok "q") 0 "q1" "si" none false).1
      rfl,
   (c4_notfound_amended exStartStore "u1" "a1" (.ok "q") 0 "q1" "si" none
      false).2 _ (by rfl)⟩

/-- Counterexample for C2: on a fresh in-progress assessment, when the
next-question provider call fails, `processAnswer` rethrows the generic
error and the store is completely unchanged — the submitted answer was
never committed, because the source only persists the appended answer
AFTER the provider call returns. -/
theorem c2_counterexample :
    (processAnswer (.error (JsError.mk "provider down")) 0 exStartStore
        "u1" "a1" "q1" "si" none).1
      = .error (JsError.mk "Failed to process answer")
    ∧ (processAnswer (.error (JsError.mk "provider down")) 0 exStartStore
        "u1" "a1" "q1" "si" none).2
      = exStartStore
    ∧ (exStartStore.all fun b => (b.answers.getD []).isEmpty) = true :=
  ⟨rfl, rfl, by decide⟩

/-- Claim C2 (amended): the provider request is attempted BEFORE the
appended answer is committed: on provider failure `processAnswer` fails
with the generic error and the assessment is unchanged (the answer is NOT
durably recorded); on provider success the answer list is unconditionally
extended by the submitted answer — a re-submission of the same
questionId+answer is appended again, not rejected as a duplicate. -/
theorem c2_append_amended (llm : Except JsError String) (now : Nat)
    (store : List AssessmentRec) (uid aid qid ans : String)
    (conf : Option JsValue) (a : AssessmentRec)
    (hfind : findAssessment store aid uid = some a) :
    (∀ e, llm = .error e →
      processAnswer llm now store uid aid qid ans conf
        = (.error (JsError.mk "Failed to process answer"), store))
    ∧ (∀ r, llm = .ok r →
      ∀ b, b ∈ (processAnswer llm now store uid aid qid ans conf).2 →
        b.id = aid →
        b.answers = some (encryptData
          (((a.answers.map decryptData).getD [])
            ++ [⟨qid, ans, conf, now⟩]))) := by
  constructor
  · intro e he
    subst he
    simp only [processAnswer, hfind]
    split <;> rfl
  · intro r hr b hb hbid
    subst hr
    by_cases hcnd : ((a.answers.map decryptData).getD []
        ++ [(⟨qid, ans, conf, now⟩ : AnswerRec)]).length ≥ a.totalQuestions
    · have hst : (processAnswer (.ok r) now store uid aid qid ans conf).2
          = updateById store aid (fun c =>
              { c with status := "completed", progress := 100,
                       answers := some (encryptData
                         (((a.answers.map decryptData).getD [])
                           ++ [⟨qid, ans, conf, now⟩])),
                       recommendations := some (encryptData r),
                       completedAt := some now }) := by
        simp only [processAnswer, hfind]
        rw [if_pos hcnd]
      rw [hst] at hb
      obtain ⟨c, _, _, hbe⟩ :=
        mem_updateById_matching store aid _ b hb hbid
      rw [hbe]
    · have hst : (processAnswer (.ok r) now store uid aid qid ans conf).2
          = updateById store aid (fun c =>
              { c with currentQuestion := .vNum
                         ((((a.answers.map decryptData).getD [])
                           ++ [(⟨qid, ans, conf, now⟩ : AnswerRec)]).length + 1),
                       answers := some (encryptData
                         (((a.answers.map decryptData).getD [])
                           ++ [⟨qid, ans, conf, now⟩])),
                       progress := jsRoundPct
                         ((((a.answers.map decryptData).getD [])
                           ++ [(⟨qid, ans, conf, now⟩ : AnswerRec)]).length)
                         a.totalQuestions,
                       nextQuestion := some r }) := by
        simp only [processAnswer, hfind]
        rw [if_neg hcnd]
      rw [hst] at hb
      obtain ⟨c, _, _, hbe⟩ :=
        mem_updateById_matching store aid _ b hb hbid
      rw [hbe]

/-- Decryption distributes trivially over the stored answer column. -/
theorem answers_map_decrypt (o : Option (List AnswerRec)) :
    (o.map decryptData).getD [] = o.getD [] := by
  cases o <;> rfl

/-- One concrete submission step preserves reachability. -/
theorem reach_exStep {st : List AssessmentRec} (h : Reach st) :
    Reach (exStep st) :=
  Reach.answer (.ok "resp") 0 "u1" "a1" "q" "si" none h

/-- Iterated concrete submission steps preserve reachability. -/
theorem reach_exStep_iter (n : Nat) {st : List AssessmentRec}
    (h : Reach st) : Reach (exStep^[n] st) := by
  induction n with
  | zero => simpa using h
  | succ k ih =>
    rw [Function.iterate_succ_apply']
    exact reach_exStep ih

/-- Counterexample for C6: a reachable store (start, then sixteen
successful `processAnswer` calls — the service never checks the status, so
a completed assessment keeps accepting answers) holds an assessment with
sixteen answers against `totalQuestions = 15`, and its progress (pinned to
100) differs from `round(100·len/totalQuestions)` (= 107). -/
theorem c6_counterexample :
    Reach exStore16
    ∧ (exStore16.all fun a =>
        decide ((a.answers.getD []).length ≤ a.totalQuestions)) = false
    ∧ (exStore16.all fun a =>
        a.progress == jsRoundPct (a.answers.getD []).length a.totalQuestions)
      = false := by
  refine ⟨?_, by decide, by decide⟩
  exact reach_exStep_iter 16
    (Reach.start "a1" 0 (.ok "q0") id "u1" "hd" pcEx Reach.empty)

/-- Claim C6 (amended): in every reachable store, every assessment has
`totalQuestions = 15`, progress within [0, 100] (progress is a natural
number, so only the upper bound is stated), and
`progress = round(100·min(len(answers), totalQuestions)/totalQuestions)`.
The unclamped equation of the claim — and the bound
`len(answers) ≤ totalQuestions` — fail, because `processAnswer` has no
status guard: submissions to a completed assessment keep appending answers
while progress stays pinned at 100. -/
theorem c6_progress_amended {st : List AssessmentRec} (h : Reach st) :
    ∀ a, a ∈ st → a.totalQuestions = 15 ∧ a.progress ≤ 100
      ∧ a.progress = jsRoundPct
          (min (a.answers.getD []).length a.totalQuestions)
          a.totalQuestions := by
  induction h with
  | empty => intro a ha; cases ha
  | @start newId now llm anonSvc uid hd pc st hst ih =>
    intro a ha
    cases llm with
    | error e =>
      simp only [startHealthAssessment] at ha
      rcases List.mem_append.mp ha with hmem | hmem
      · exact ih a hmem
      · rcases List.mem_singleton.mp hmem with rfl
        exact ⟨rfl, by norm_num, by norm_num [jsRoundPct]⟩
    | ok q =>
      simp only [startHealthAssessment] at ha
      rcases List.mem_map.mp ha with ⟨c, hcmem, hceq⟩
      have hcinv : c.totalQuestions = 15 ∧ c.progress ≤ 100
          ∧ c.progress = jsRoundPct
              (min (c.answers.getD []).length c.totalQuestions)
              c.totalQuestions := by
        rcases List.mem_append.mp hcmem with hmem | hmem
        · exact ih c hmem
        · rcases List.mem_singleton.mp hmem with rfl
          exact ⟨rfl, by norm_num, by norm_num [jsRoundPct]⟩
      by_cases hcid : (c.id == newId)
      · rw [if_pos hcid] at hceq
        rw [← hceq]
        exact hcinv
      · rw [if_neg hcid] at hceq
        rw [← hceq]
        exact hcinv
  | @answer llm now uid aid qid ans conf st hst ih =>
    intro a ha
    cases hfind : findAssessment st aid uid with
    | none =>
      simp only [processAnswer, hfind] at ha
      exact ih a ha
    | some a1 =>
      have ha1 := ih a1 (List.mem_of_find?_eq_some hfind)
      cases llm with
      | error e =>
        simp only [processAnswer, hfind] at ha
        split at ha <;> exact ih a ha
      | ok r =>
        simp only [processAnswer, hfind] at ha
        split at ha
        case isTrue hcnd =>
          rcases List.mem_map.mp ha with ⟨c, hcmem, hceq⟩
          have hcinv := ih c hcmem
          have hlen : ((a1.answers.map decryptData).getD []
              ++ [(⟨qid, ans, conf, now⟩ : AnswerRec)]).length ≥ 15 := by
            rw [← ha1.1]
            exact hcnd
          by_cases hcid : (c.id == aid)
          · rw [if_pos hcid] at hceq
            rw [← hceq]
            refine ⟨hcinv.1, by norm_num, ?_⟩
            show (100 : Nat) = jsRoundPct
              (min ((a1.answers.map decryptData).getD []
                ++ [(⟨qid, ans, conf, now⟩ : AnswerRec)]).length c.totalQuestions)
              c.totalQuestions
            rw [hcinv.1, Nat.min_eq_right hlen]
            rfl
          · rw [if_neg hcid] at hceq
            rw [← hceq]
            exact hcinv
        case isFalse hcnd =>
          rcases List.mem_map.mp ha with ⟨c, hcmem, hceq⟩
          have hcinv := ih c hcmem
          have hlt : ((a1.answers.map decryptData).getD []
              ++ [(⟨qid, ans, conf, now⟩ : AnswerRec)]).length < 15 := by
            rw [← ha1.1]
            omega
          by_cases hcid : (c.id == aid)
          · rw [if_pos hcid] at hceq
            rw [← hceq]
            refine ⟨hcinv.1, ?_, ?_⟩
            · show jsRoundPct ((a1.answers.map decryptData).getD []
                ++ [(⟨qid, ans, conf, now⟩ : AnswerRec)]).length
                a1.totalQuestions ≤ 100
              rw [ha1.1]
              unfold jsRoundPct
              omega
            · show jsRoundPct ((a1.answers.map decryptData).getD []
                ++ [(⟨qid, ans, conf, now⟩ : AnswerRec)]).length
                a1.totalQuestions
                = jsRoundPct
                  (min ((a1.answers.map decryptData).getD []
                    ++ [(⟨qid, ans, conf, now⟩ : AnswerRec)]).length
                    c.totalQuestions)
                  c.totalQuestions
              rw [ha1.1, hcinv.1, Nat.min_eq_left (Nat.le_of_lt hlt)]
          · rw [if_neg hcid] at hceq
            rw [← hceq]
            exact hcinv
  | @erase uid aid st hst ih =>
    intro a ha
    cases hfind : findAssessment st aid uid with
    | none =>
      simp only [deleteAssessment, hfind] at ha
      exact ih a ha
    | some a1 =>
      simp only [deleteAssessment, hfind] at ha
      exact ih a (List.mem_filter.mp ha).1

/-- Witness for C6 (amended): the invariant instantiated on the concrete
assessment of the reachable post-start store. -/
theorem c6_witness :
    (⟨"a1", "u1", "in_progress", "hd", "hd", none, 0, .vStr "q0",
      some "q0", 15, none, 0, 0, none⟩ : AssessmentRec).totalQuestions = 15
    ∧ (⟨"a1", "u1", "in_progress", "hd", "hd", none, 0, .vStr "q0",
      some "q0", 15, none, 0, 0, none⟩ : AssessmentRec).progress ≤ 100 :=
  ⟨(c6_progress_amended
      (Reach.start "a1" 0 (.ok "q0") id "u1" "hd" pcEx Reach.empty)
      _ (by decide)).1,
   (c6_progress_amended
      (Reach.start "a1" 0 (.ok "q0") id "u1" "hd" pcEx Reach.empty)
      _ (by decide)).2.1⟩

/-- Witness for C2 (amended): a concrete provider failure against the
concrete fresh assessment leaves the store untouched and yields the
generic error. -/
theorem c2_witness :
    processAnswer (.error (JsError.mk "timeout")) 0 exStartStore
        "u1" "a1" "q2" "no" none
      = (.error (JsError.mk "Failed to process answer"), exStartStore) :=
  (c2_append_amended (.error (JsError.mk "timeout")) 0 exStartStore
      "u1" "a1" "q2" "no" none
      ⟨"a1", "u1", "in_progress", "hd", "hd", none, 0, .vStr "q0",
       some "q0", 15, none, 0, 0, none⟩
      (by rfl)).1 (JsError.mk "timeout") rfl

/-- Progress of a run of successful mid-assessment submissions against a
single-assessment store: each step appends one answer, keeps the
assessment `in_progress`, and recomputes the rounded percentage. -/
theorem submitRun_progress (now : Nat) (uid aid : String)
    (subs : List (String × String × String)) :
    ∀ (k : Nat) (b : AssessmentRec),
      b.id = aid → b.userId = uid → b.status = "in_progress" →
      b.totalQuestions = 15 → (b.answers.getD []).length = k →
      b.progress = jsRoundPct k 15 →
      k + subs.length ≤ 14 →
      ∃ c, submitRun now uid aid subs [b] = [c] ∧ c.id = aid
        ∧ c.userId = uid ∧ c.status = "in_progress" ∧ c.totalQuestions = 15
        ∧ (c.answers.getD []).length = k + subs.length
        ∧ c.progress = jsRoundPct (k + subs.length) 15 := by
  induction subs with
  | nil =>
    intro k b h1 h2 h3 h4 h5 h6 _
    exact ⟨b, rfl, h1, h2, h3, h4, by simpa using h5, by simpa using h6⟩
  | cons s rest ih =>
    intro k b h1 h2 h3 h4 h5 h6 hlen
    have hfind : findAssessment [b] aid uid = some b := by
      simp [findAssessment, List.find?, h1, h2]
    have hlen1 : ((b.answers.map decryptData).getD []
        ++ [(⟨s.1, s.2.1, none, now⟩ : AnswerRec)]).length = k + 1 := by
      rw [List.length_append, answers_map_decrypt, h5]
      rfl
    have hcnd : ¬(((b.answers.map decryptData).getD []
        ++ [(⟨s.1, s.2.1, none, now⟩ : AnswerRec)]).length
          ≥ b.totalQuestions) := by
      rw [hlen1, h4]
      simp only [List.length_cons] at hlen
      omega
    have hstep : (processAnswer (.ok s.2.2) now [b] uid aid s.1 s.2.1
        none).2
        = [{ b with
              currentQuestion := .vNum (((b.answers.map decryptData).getD []
                ++ [(⟨s.1, s.2.1, none, now⟩ : AnswerRec)]).length + 1),
              answers := some (encryptData ((b.answers.map decryptData).getD []
                ++ [(⟨s.1, s.2.1, none, now⟩ : AnswerRec)])),
              progress := jsRoundPct (((b.answers.map decryptData).getD []
                ++ [(⟨s.1, s.2.1, none, now⟩ : AnswerRec)]).length)
                b.totalQuestions,
              nextQuestion := some s.2.2 }] := by
      simp only [processAnswer, hfind]
      rw [if_neg hcnd]
      simp [updateById, h1]
    have hrun : submitRun now uid aid (s :: rest) [b]
        = submitRun now uid aid rest
            ((processAnswer (.ok s.2.2) now [b] uid aid s.1 s.2.1 none).2) := by
      simp only [submitRun, List.foldl_cons]
    rw [hrun, hstep]
    have hnext := ih (k + 1)
      { b with
          currentQuestion := .vNum (((b.answers.map decryptData).getD []
            ++ [(⟨s.1, s.2.1, none, now⟩ : AnswerRec)]).length + 1),
          answers := some (encryptData ((b.answers.map decryptData).getD []
            ++ [(⟨s.1, s.2.1, none, now⟩ : AnswerRec)])),
          progress := jsRoundPct (((b.answers.map decryptData).getD []
            ++ [(⟨s.1, s.2.1, none, now⟩ : AnswerRec)]).length)
            b.totalQuestions,
          nextQuestion := some s.2.2 }
      h1 h2 h3 h4 (by simpa [encryptData] using hlen1)
      (by rw [hlen1, h4]) (by simp only [List.length_cons] at hlen; omega)
    obtain ⟨c, hc1, hc2, hc3, hc4, hc5, hc6, hc7⟩ := hnext
    refine ⟨c, hc1, hc2, hc3, hc4, hc5, ?_, ?_⟩
    · rw [hc6]
      simp only [List.length_cons]
      omega
    · rw [hc7]
      congr 1
      simp only [List.length_cons]
      omega

/-- Claim C5: starting an assessment fixes `totalQuestions = 15`; after 14
valid answers (each next-question provider call succeeding) the stored
assessment is still `in_progress` with progress 93; the 15th answer
completes it: the call returns status `completed` with progress 100 and the
non-empty recommendations are persisted on the record. -/
theorem c5_lifecycle (aid uid hd q0 r qid15 ans15 : String)
    (anonSvc : String → String) (pc : PrivacyContext) (now : Nat)
    (subs : List (String × String × String))
    (hlen : subs.length = 14) (hr : r ≠ "") :
    ∃ b, submitRun now uid aid subs
        ((startHealthAssessment aid now (.ok q0) anonSvc uid hd pc []).2)
        = [b]
      ∧ b.status = "in_progress" ∧ b.progress = 93
      ∧ (processAnswer (.ok r) now [b] uid aid qid15 ans15 none).1
          = .ok ⟨"completed", none, some r, 100, none⟩
      ∧ (∃ c, (processAnswer (.ok r) now [b] uid aid qid15 ans15 none).2
            = [c]
          ∧ c.status = "completed" ∧ c.progress = 100
          ∧ c.recommendations = some r ∧ r ≠ "") := by
  have hstart : (startHealthAssessment aid now (.ok q0) anonSvc uid hd pc
      []).2
      = [{ id := aid, userId := uid, status := "in_progress",
           healthData := hd,
           anonymizedData := if pc.anonymization then anonSvc hd else hd,
           answers := none, progress := 0, currentQuestion := .vStr q0,
           nextQuestion := some q0, totalQuestions := 15,
           recommendations := none, createdAt := now, updatedAt := now,
           completedAt := none }] := by
    simp [startHealthAssessment, updateById, encryptData]
  obtain ⟨b, hb1, hb2, hb3, hb4, hb5, hb6, hb7⟩ :=
    submitRun_progress now uid aid subs 0
      { id := aid, userId := uid, status := "in_progress",
        healthData := hd,
        anonymizedData := if pc.anonymization then anonSvc hd else hd,
        answers := none, progress := 0, currentQuestion := .vStr q0,
        nextQuestion := some q0, totalQuestions := 15,
        recommendations := none, createdAt := now, updatedAt := now,
        completedAt := none }
      rfl rfl rfl rfl rfl rfl (by omega)
  rw [hstart]
  have h14 : (0 : Nat) + subs.length = 14 := by omega
  rw [h14] at hb6 hb7
  have hprog93 : b.progress = 93 := by
    rw [hb7]
    decide
  have hfindb : findAssessment [b] aid uid = some b := by
    simp [findAssessment, List.find?, hb2, hb3]
  have hlen15 : ((b.answers.map decryptData).getD []
      ++ [(⟨qid15, ans15, none, now⟩ : AnswerRec)]).length = 15 := by
    rw [List.length_append, answers_map_decrypt, hb6]
    rfl
  have hcnd : ((b.answers.map decryptData).getD []
      ++ [(⟨qid15, ans15, none, now⟩ : AnswerRec)]).length
        ≥ b.totalQuestions := by
    rw [hlen15, hb5]
  have hres1 : (processAnswer (.ok r) now [b] uid aid qid15 ans15 none).1
      = .ok ⟨"completed", none, some r, 100, none⟩ := by
    simp only [processAnswer, hfindb]
    rw [if_pos hcnd]
  have hres2 : (processAnswer (.ok r) now [b] uid aid qid15 ans15 none).2
      = [{ b with
            status := "completed"
            progress := 100
            answers := some (encryptData ((b.answers.map decryptData).getD []
              ++ [(⟨qid15, ans15, none, now⟩ : AnswerRec)]))
            recommendations := some (encryptData r)
            completedAt := some now }] := by
    simp only [processAnswer, hfindb]
    rw [if_pos hcnd]
    simp [updateById, hb2]
  exact ⟨b, hb1, hb4, hprog93, hres1, ⟨_, hres2, rfl, rfl, rfl, hr⟩⟩

/-- Witness for C5: the full concrete 15-step lifecycle with fourteen
identical mid-assessment submissions and a concrete non-empty
recommendations text. -/
theorem c5_witness :
    ∃ b, submitRun 0 "u9" "a9" (List.replicate 14 ("q", "si", "nq"))
        ((startHealthAssessment "a9" 0 (.ok "q0") id "u9" "hd" pcEx []).2)
        = [b]
      ∧ b.status = "in_progress" ∧ b.progress = 93
      ∧ (processAnswer (.ok "coma más verduras") 0 [b] "u9" "a9" "q15"
          "listo" none).1
          = .ok ⟨"completed", none, some "coma más verduras", 100, none⟩
      ∧ (∃ c, (processAnswer (.ok "coma más verduras") 0 [b] "u9" "a9"
            "q15" "listo" none).2 = [c]
          ∧ c.status = "completed" ∧ c.progress = 100
          ∧ c.recommendations = some "coma más verduras"
          ∧ "coma más verduras" ≠ "") :=
  c5_lifecycle "a9" "u9" "hd" "q0" "coma más verduras" "q15" "listo" id
    pcEx 0 (List.replicate 14 ("q", "si", "nq")) (by simp) (by decide)
